import Mathlib

/-!
Shallow embedding of the bonelifer/MusicScripts artwork pipeline
(embed-artwork.py, export-coverart.py, id3tocovr.py) and proofs about it.

Images are modelled by their decoded view: pixel dimensions, PIL color
mode and encoding format.  Byte equality of image payloads is modelled as
equality of this decoded view.  Filesystem effects and provider queries
are modelled as explicit event lists.
-/

namespace MusicScripts

/-- PIL color modes that occur in the scripts (RGBA and P are converted
to RGB before a JPEG save; RGB and L are JPEG-writable as is). -/
inductive PilMode
  | RGB
  | RGBA
  | P
  | L
deriving DecidableEq, Repr

/-- Encoding formats relevant to the pipeline. -/
inductive ImgFormat
  | JPEG
  | PNG
  | GIF
  | BMP
deriving DecidableEq, Repr

/-- Decoded view of an image: width, height, PIL mode, encoding format. -/
structure Img where
  width : Nat
  height : Nat
  mode : PilMode
  format : ImgFormat
deriving DecidableEq, Repr

/-- embed-artwork.py lines 64-67: convert RGBA or P mode images to RGB
before saving as JPEG.  Dimensions and format are untouched. -/
def convert_mode (i : Img) : Img :=
  if i.mode = PilMode.RGBA ∨ i.mode = PilMode.P then
    { i with mode := PilMode.RGB }
  else i

/-- embed-artwork.py create_temp_cover (lines 62-74): convert mode if
RGBA or P; resize non-proportionally to temp_res x temp_res only when
both dimensions are at least temp_res; save to /tmp/temp_cover.jpg,
which re-encodes as JPEG. -/
def create_temp_cover (i : Img) (temp_res : Nat) : Img :=
  if temp_res ≤ (convert_mode i).width ∧ temp_res ≤ (convert_mode i).height then
    { convert_mode i with width := temp_res, height := temp_res,
                          format := ImgFormat.JPEG }
  else { convert_mode i with format := ImgFormat.JPEG }

/-- embed-artwork.py process_folder lines 136-147: if cover.jpg is
smaller than TEMP_RES in both dimensions, the original cover file is
used as is (whatever its format); otherwise create_temp_cover produces
the resized JPEG. -/
def select_temp_cover (temp_res : Nat) (img : Img) : Img :=
  if img.width < temp_res ∧ img.height < temp_res then img
  else create_temp_cover img temp_res

/-- Filesystem write events performed by the scripts. -/
inductive Write
  | tempCover
  | audioSave
  | coverWrite
deriving DecidableEq, Repr

/-- User-visible reports relevant to the claims. -/
inductive Msg
  | coverNotFound
  | coverEmpty
  | invalidCover
  | noFiles
  | skipExisting
  | artworkSaved
  | downloadFailed
  | noArtworkFound
deriving DecidableEq, Repr

/-- An APIC (attached picture) ID3 frame; data is the embedded image. -/
structure APIC where
  encoding : Nat
  mime : String
  typ : Nat
  desc : String
  data : Img
deriving DecidableEq, Repr

/-- An MP3 file, viewed through its APIC frames in tag order. -/
structure MP3 where
  apics : List APIC
deriving DecidableEq, Repr

/-- embed-artwork.py lines 178-184: the single APIC frame added when
embedding, carrying the normalized JPEG bytes. -/
def newAPIC (temp : Img) : APIC :=
  { encoding := 3, mime := "image/jpeg", typ := 3, desc := "Cover", data := temp }

/-- embed-artwork.py get_embedded_artwork_resolution (lines 76-82):
resolution of the first APIC frame, none when there is no artwork. -/
def get_embedded_artwork_resolution (m : MP3) : Option (Nat × Nat) :=
  (m.apics.head?).map (fun t => (t.data.width, t.data.height))

/-- embed-artwork.py process_folder lines 156-185, one music file: skip
when the first embedded artwork is at least as large as the candidate in
both dimensions; otherwise remove all APIC frames, add the single new
frame, and save the file.  Second component lists the writes performed. -/
def process_music_file (temp : Img) (m : MP3) : MP3 × List Write :=
  match m.apics.head? with
  | some t =>
      if temp.width ≤ t.data.width ∧ temp.height ≤ t.data.height then (m, [])
      else ({ apics := [newAPIC temp] }, [Write.audioSave])
  | none => ({ apics := [newAPIC temp] }, [Write.audioSave])

/-- content of a cover.jpg file on disk, as the scripts classify it. -/
inductive CoverData
  | emptyFile
  | corrupt
  | image (img : Img)
deriving DecidableEq, Repr

/-- A folder: an optional cover.jpg and directory entries (file name
paired with the decoded MP3 when the entry is an audio file). -/
structure EFolder where
  cover : Option CoverData
  files : List (String × MP3)
deriving DecidableEq, Repr

/-- Python str.endswith, computed on the character lists so that it
evaluates by kernel reduction. -/
def str_endswith (s suffix : String) : Bool :=
  List.isSuffixOf suffix.data s.data

/-- embed-artwork.py lines 150-188: process every ".mp3" entry of the
listing with process_music_file, collecting writes. -/
def embed_files (temp : Img) : List (String × MP3) → List (String × MP3) × List Write
  | [] => ([], [])
  | (n, m) :: rest =>
      let r := embed_files temp rest
      if str_endswith n ".mp3" then
        let p := process_music_file temp m
        ((n, p.1) :: r.1, p.2 ++ r.2)
      else ((n, m) :: r.1, r.2)

/-- embed-artwork.py process_folder (lines 94-188): skip when cover.jpg
is missing, empty or undecodable; otherwise a non-JPEG cover is first
converted (a temp-file write), the embedding candidate is chosen by
select_temp_cover (a temp-file write when the small-cover shortcut does
not apply), and every mp3 entry is processed.  Returns the new folder
state, the write events and the reports. -/
def embed_process_folder (R : Nat) (f : EFolder) : EFolder × List Write × List Msg :=
  match f.cover with
  | none => (f, [], [Msg.coverNotFound])
  | some CoverData.emptyFile => (f, [], [Msg.coverEmpty])
  | some CoverData.corrupt => (f, [], [Msg.invalidCover])
  | some (CoverData.image img) =>
      let convWrites : List Write :=
        if img.format = ImgFormat.JPEG then [] else [Write.tempCover]
      let selWrites : List Write :=
        if img.width < R ∧ img.height < R then [] else [Write.tempCover]
      let temp := select_temp_cover R img
      let r := embed_files temp f.files
      (⟨f.cover, r.1⟩, convWrites ++ selWrites ++ r.2, [])

/-- export-coverart.py export_cover_from_mp3 (lines 50-68): take the
first ".mp3" entry of the directory listing, find its first APIC frame,
and write that frame's raw bytes to cover.jpg.  Returns the written
image, none when there is no mp3 or no artwork. -/
def export_cover_from_mp3 (entries : List (String × MP3)) : Option Img :=
  match (entries.filter (fun e => str_endswith e.1 ".mp3")).head? with
  | none => none
  | some e => (e.2.apics.head?).map (fun t => t.data)

/-- id3tocovr.py line 228 and line 235: the file used for identity
lookup is the first ".mp3" entry of the os.listdir enumeration. -/
def first_mp3_fetch (listing : List String) : Option String :=
  (listing.filter (fun f => str_endswith f ".mp3")).head?

/-- export-coverart.py lines 52-57: the file used for artwork export is
the first ".mp3" entry of the os.listdir enumeration. -/
def first_mp3_export (listing : List String) : Option String :=
  (listing.filter (fun f => str_endswith f ".mp3")).head?

/-- Python truthiness of an optional string: None and "" are falsy. -/
def truthy : Option String → Bool
  | none => false
  | some s => !(s == "")

/-- The settings of id3tocovr.py consumed by the source chain
(lines 98-103; the remaining settings are not read by that code). -/
structure Settings where
  USE_MUSICBRAINZ : Bool
  USE_HIRES_PRIORITY : Bool
  NO_LOW_RES : Bool
deriving DecidableEq, Repr

/-- The three artwork providers. -/
inductive Source
  | musicbrainz
  | itunes
  | lastfm
deriving DecidableEq, Repr

/-- id3tocovr.py fetch_lastfm_artwork (lines 172-184): under NO_LOW_RES
the function returns before any network call; otherwise the Last.fm
answer is returned and the provider is recorded as queried. -/
def fetch_lastfm_artwork (s : Settings) (lf : Option String) :
    Option String × List Source :=
  if s.NO_LOW_RES then (none, [])
  else (lf, [Source.lastfm])

/-- id3tocovr.py lines 241-244: the MusicBrainz candidate — a release
lookup (oracle mbRelease) followed, when a release id was found, by the
Cover Art Archive image lookup (oracle caa). -/
def mb_result (s : Settings) (mbRelease caa : Option String) : Option String :=
  if s.USE_MUSICBRAINZ then (if truthy mbRelease then caa else none)
  else none

/-- id3tocovr.py fetch_artwork_for_folder lines 239-250: the source
chain.  Oracles give each provider's network answer; the second
component records which providers were actually queried, in order. -/
def fetch_chain (s : Settings) (mbRelease caa it lf : Option String) :
    Option String × List Source :=
  let u1 := mb_result s mbRelease caa
  let q1 : List Source := if s.USE_MUSICBRAINZ then [Source.musicbrainz] else []
  let u2 := if truthy u1 = false ∧ s.USE_HIRES_PRIORITY = true then it else u1
  let q2 := if truthy u1 = false ∧ s.USE_HIRES_PRIORITY = true
            then q1 ++ [Source.itunes] else q1
  if truthy u2 = false ∧ s.NO_LOW_RES = false then
    ((fetch_lastfm_artwork s lf).1, q2 ++ (fetch_lastfm_artwork s lf).2)
  else (u2, q2)

/-- substring test, modelling the Python expression
\x7bneedle in haystack\x7d used on the Content-Type header. -/
def strContains (hay needle : String) : Bool :=
  (List.range (hay.data.length + 1)).any
    (fun i => List.isPrefixOf needle.data (hay.data.drop i))

/-- id3tocovr.py download_artwork (lines 186-204): the body is written
to the save path exactly when the Content-Type header mentions image;
no decoding or JPEG validation is performed. -/
def download_artwork (contentType : String) (body : Img) : Option Img :=
  if strContains contentType "image" then some body else none

/-- Result of fetch_artwork_for_folder: the written cover (if any), the
write events, the reports, and the providers queried. -/
structure FetchResult where
  written : Option Img
  writes : List Write
  msgs : List Msg
  queried : List Source
deriving DecidableEq, Repr

/-- id3tocovr.py fetch_artwork_for_folder (lines 215-262): skip when
cover.jpg exists; report when the folder has no mp3 files; otherwise run
the source chain on the identity of the first mp3 and download the first
candidate, writing cover.jpg on success. -/
def fetch_artwork_for_folder (s : Settings) (mbRelease caa it lf : Option String)
    (contentType : String) (body : Img) (hasCover : Bool)
    (listing : List String) : FetchResult :=
  if hasCover then ⟨none, [], [Msg.skipExisting], []⟩
  else
    match (listing.filter (fun n => str_endswith n ".mp3")).head? with
    | none => ⟨none, [], [Msg.noFiles], []⟩
    | some _ =>
        let r := fetch_chain s mbRelease caa it lf
        if truthy r.1 then
          match download_artwork contentType body with
          | some img => ⟨some img, [Write.coverWrite], [Msg.artworkSaved], r.2⟩
          | none => ⟨none, [], [Msg.downloadFailed], r.2⟩
        else ⟨none, [], [Msg.noArtworkFound], r.2⟩

/-- What each entry point decides to run after flag parsing. -/
inductive Action
  | usage
  | single (p : String)
  | wholeLibrary
  | cdOnly
  | libraryWalk (cd : Bool)
  | noAction
deriving DecidableEq, Repr

/-- embed-artwork.py main (lines 230-249): usage when no flag is truthy;
input wins; else -a processes the whole library (the -c flag is not
consulted on that branch); else -c alone processes CD folders. -/
def embed_main (all cd : Bool) (input : Option String) : Action :=
  if truthy input = false ∧ all = false ∧ cd = false then Action.usage
  else if truthy input then Action.single (input.getD "")
  else if all then Action.wholeLibrary
  else if cd then Action.cdOnly
  else Action.noAction

/-- export-coverart.py main (lines 110-132): same dispatch shape as
embed-artwork.py, with -a walking every directory of the library. -/
def export_main (all cd : Bool) (input : Option String) : Action :=
  if truthy input = false ∧ all = false ∧ cd = false then Action.usage
  else if truthy input then Action.single (input.getD "")
  else if all then Action.wholeLibrary
  else if cd then Action.cdOnly
  else Action.noAction

/-- id3tocovr.py main (lines 318-338): usage when no flag is truthy;
input wins; else -a runs process_folder with the -c flag passed along;
-c alone matches no branch and nothing runs. -/
def id3_main (all cd : Bool) (input : Option String) : Action :=
  if truthy input = false ∧ all = false ∧ cd = false then Action.usage
  else if truthy input then Action.single (input.getD "")
  else if all then Action.libraryWalk cd
  else Action.noAction

/-- An album directory and the names of its subdirectories, for the
artist/album walk of id3tocovr.py process_folder. -/
structure AlbumDir where
  path : String
  subdirs : List String
deriving DecidableEq, Repr

/-- id3tocovr.py line 284: subfolders whose lowercased name starts
with cd. -/
def cd_subdirs (al : AlbumDir) : List String :=
  al.subdirs.filter (fun d => List.isPrefixOf "cd".data (d.data.map Char.toLower))

/-- id3tocovr.py lines 286-293: with the cd flag and a nonempty list of
CD subfolders, each CD subfolder is targeted; otherwise the album folder
itself is targeted. -/
def id3_album_targets (processCD : Bool) (al : AlbumDir) : List String :=
  if processCD ∧ cd_subdirs al ≠ [] then
    (cd_subdirs al).map (fun d => al.path ++ "/" ++ d)
  else [al.path]

theorem convert_mode_width (i : Img) : (convert_mode i).width = i.width := by
  unfold convert_mode; split <;> rfl

theorem convert_mode_height (i : Img) : (convert_mode i).height = i.height := by
  unfold convert_mode; split <;> rfl

theorem convert_mode_format (i : Img) : (convert_mode i).format = i.format := by
  unfold convert_mode; split <;> rfl

/-- The embedding candidate chosen by process_folder never exceeds the
cover image in either dimension. -/
theorem select_temp_cover_le (R : Nat) (i : Img) :
    (select_temp_cover R i).width ≤ i.width ∧
    (select_temp_cover R i).height ≤ i.height := by
  unfold select_temp_cover
  split
  · exact ⟨Nat.le_refl _, Nat.le_refl _⟩
  · unfold create_temp_cover
    split
    · next h =>
        refine ⟨?_, ?_⟩
        · exact le_of_le_of_eq h.1 (convert_mode_width i)
        · exact le_of_le_of_eq h.2 (convert_mode_height i)
    · rw [convert_mode_width, convert_mode_height]
      exact ⟨Nat.le_refl _, Nat.le_refl _⟩

/-- C3: for a source image whose width and height are both strictly
below the target resolution, create_temp_cover (the Image Normalizer)
keeps the pixel dimensions unchanged and re-encodes the output as JPEG. -/
theorem c3_no_upscale_below_target (i : Img) (R : Nat)
    (hw : i.width < R) (hh : i.height < R) :
    (create_temp_cover i R).width = i.width ∧
    (create_temp_cover i R).height = i.height ∧
    (create_temp_cover i R).format = ImgFormat.JPEG := by
  have hw' : (convert_mode i).width = i.width := convert_mode_width i
  have hh' : (convert_mode i).height = i.height := convert_mode_height i
  have hno : ¬ (R ≤ (convert_mode i).width ∧ R ≤ (convert_mode i).height) := by
    rw [hw', hh']
    intro h
    exact absurd hw (Nat.not_lt.mpr h.1)
  unfold create_temp_cover
  rw [if_neg hno]
  exact ⟨hw', hh', rfl⟩

theorem c3_no_upscale_below_target_witness :
    (100 : Nat) < 600 ∧
    (create_temp_cover ⟨100, 200, PilMode.RGB, ImgFormat.PNG⟩ 600).width = 100 := by
  refine ⟨by decide, ?_⟩
  exact (c3_no_upscale_below_target ⟨100, 200, PilMode.RGB, ImgFormat.PNG⟩ 600
    (by decide) (by decide)).1

/-- C4: for a source image whose width and height are both at least the
target resolution R, create_temp_cover outputs exactly R x R pixels,
encoded as JPEG. -/
theorem c4_resize_to_exact_square (i : Img) (R : Nat)
    (hw : R ≤ i.width) (hh : R ≤ i.height) :
    (create_temp_cover i R).width = R ∧
    (create_temp_cover i R).height = R ∧
    (create_temp_cover i R).format = ImgFormat.JPEG := by
  have hw' : (convert_mode i).width = i.width := convert_mode_width i
  have hh' : (convert_mode i).height = i.height := convert_mode_height i
  have hyes : R ≤ (convert_mode i).width ∧ R ≤ (convert_mode i).height := by
    rw [hw', hh']; exact ⟨hw, hh⟩
  unfold create_temp_cover
  rw [if_pos hyes]
  exact ⟨rfl, rfl, rfl⟩

theorem c4_resize_to_exact_square_witness :
    (600 : Nat) ≤ 800 ∧
    (create_temp_cover ⟨800, 700, PilMode.RGBA, ImgFormat.PNG⟩ 600).width = 600 := by
  refine ⟨by decide, ?_⟩
  exact (c4_resize_to_exact_square ⟨800, 700, PilMode.RGBA, ImgFormat.PNG⟩ 600
    (by decide) (by decide)).1

/-- C10: when exactly one dimension reaches the target resolution, the
normalization path taken by process_folder performs no resize: it calls
create_temp_cover, and the output keeps the original width and height
while being re-encoded as JPEG. -/
theorem c10_mixed_case_no_resize (i : Img) (R : Nat)
    (h : (R ≤ i.width ∧ i.height < R) ∨ (i.width < R ∧ R ≤ i.height)) :
    select_temp_cover R i = create_temp_cover i R ∧
    (select_temp_cover R i).width = i.width ∧
    (select_temp_cover R i).height = i.height ∧
    (select_temp_cover R i).format = ImgFormat.JPEG := by
  have hnotsmall : ¬ (i.width < R ∧ i.height < R) := by
    rcases h with ⟨h1, _⟩ | ⟨_, h2⟩
    · intro hc; exact absurd h1 (Nat.not_le.mpr hc.1)
    · intro hc; exact absurd h2 (Nat.not_le.mpr hc.2)
  have hsel : select_temp_cover R i = create_temp_cover i R := by
    unfold select_temp_cover
    rw [if_neg hnotsmall]
  have hnotboth : ¬ (R ≤ (convert_mode i).width ∧ R ≤ (convert_mode i).height) := by
    rw [convert_mode_width, convert_mode_height]
    rcases h with ⟨_, h2⟩ | ⟨h1, _⟩
    · intro hc; exact absurd hc.2 (Nat.not_le.mpr h2)
    · intro hc; exact absurd hc.1 (Nat.not_le.mpr h1)
  have hcreate : (create_temp_cover i R).width = i.width ∧
      (create_temp_cover i R).height = i.height ∧
      (create_temp_cover i R).format = ImgFormat.JPEG := by
    unfold create_temp_cover
    rw [if_neg hnotboth]
    exact ⟨convert_mode_width i, convert_mode_height i, rfl⟩
  exact ⟨hsel, hsel ▸ hcreate.1, hsel ▸ hcreate.2.1, hsel ▸ hcreate.2.2⟩

theorem c10_mixed_case_no_resize_witness :
    ((600 : Nat) ≤ 800 ∧ (300 : Nat) < 600) ∧
    (select_temp_cover 600 ⟨800, 300, PilMode.RGB, ImgFormat.JPEG⟩).width = 800 := by
  refine ⟨⟨by decide, by decide⟩, ?_⟩
  exact (c10_mixed_case_no_resize ⟨800, 300, PilMode.RGB, ImgFormat.JPEG⟩ 600
    (Or.inl ⟨by decide, by decide⟩)).2.1

/-- C1 as stated is false: with embedded artwork 100x700 and candidate
500x500 the candidate does not strictly exceed both dimensions (the
embedded height 700 is at least the candidate height 500), yet the code
replaces the artwork and saves the file. -/
theorem c1_counterexample :
    (process_music_file ⟨500, 500, PilMode.RGB, ImgFormat.JPEG⟩
        ⟨[⟨3, "image/jpeg", 3, "Cover", ⟨100, 700, PilMode.RGB, ImgFormat.JPEG⟩⟩]⟩).2
      = [Write.audioSave] ∧
    (500 : Nat) ≤ 700 := by
  exact ⟨rfl, by decide⟩

/-- C1 amended: existing embedded artwork is kept exactly when it is at
least as large as the candidate in both dimensions; equivalently, it is
replaced exactly when the candidate strictly exceeds it in at least one
dimension. -/
theorem c1_replace_iff_larger_in_some_dim (temp : Img) (m : MP3) (t : APIC)
    (h : m.apics.head? = some t) :
    (process_music_file temp m = (m, []) ↔
      (temp.width ≤ t.data.width ∧ temp.height ≤ t.data.height)) ∧
    (process_music_file temp m = ({ apics := [newAPIC temp] }, [Write.audioSave]) ↔
      (t.data.width < temp.width ∨ t.data.height < temp.height)) := by
  simp only [process_music_file, h]
  by_cases hc : temp.width ≤ t.data.width ∧ temp.height ≤ t.data.height
  · rw [if_pos hc]
    constructor
    · exact ⟨fun _ => hc, fun _ => rfl⟩
    · constructor
      · intro heq
        have : ([] : List Write) = [Write.audioSave] := congrArg Prod.snd heq
        exact absurd this (by decide)
      · intro hlt
        rcases hlt with hlt | hlt
        · exact absurd hc.1 (Nat.not_le.mpr hlt)
        · exact absurd hc.2 (Nat.not_le.mpr hlt)
  · rw [if_neg hc]
    constructor
    · constructor
      · intro heq
        have : [Write.audioSave] = ([] : List Write) := congrArg Prod.snd heq
        exact absurd this (by decide)
      · intro hle; exact absurd hle hc
    · constructor
      · intro _
        rcases Nat.lt_or_ge t.data.width temp.width with hw | hw
        · exact Or.inl hw
        · refine Or.inr ?_
          rcases Nat.lt_or_ge t.data.height temp.height with hh | hh
          · exact hh
          · exact absurd ⟨hw, hh⟩ hc
      · intro _; rfl

theorem c1_replace_iff_larger_in_some_dim_witness :
    ((⟨[⟨3, "image/jpeg", 3, "Cover", ⟨700, 700, PilMode.RGB, ImgFormat.JPEG⟩⟩]⟩ : MP3).apics.head?
        = some ⟨3, "image/jpeg", 3, "Cover", ⟨700, 700, PilMode.RGB, ImgFormat.JPEG⟩⟩) ∧
    (process_music_file ⟨600, 600, PilMode.RGB, ImgFormat.JPEG⟩
        ⟨[⟨3, "image/jpeg", 3, "Cover", ⟨700, 700, PilMode.RGB, ImgFormat.JPEG⟩⟩]⟩
      = (⟨[⟨3, "image/jpeg", 3, "Cover", ⟨700, 700, PilMode.RGB, ImgFormat.JPEG⟩⟩]⟩, [])) := by
  refine ⟨rfl, ?_⟩
  exact (c1_replace_iff_larger_in_some_dim ⟨600, 600, PilMode.RGB, ImgFormat.JPEG⟩
    ⟨[⟨3, "image/jpeg", 3, "Cover", ⟨700, 700, PilMode.RGB, ImgFormat.JPEG⟩⟩]⟩
    ⟨3, "image/jpeg", 3, "Cover", ⟨700, 700, PilMode.RGB, ImgFormat.JPEG⟩⟩
    rfl).1.mpr ⟨by decide, by decide⟩

/-- Skipping lemma: when the embedded artwork is at least as large as
the candidate in both dimensions, the file is left untouched. -/
theorem process_skip (temp : Img) (m : MP3) (t : APIC)
    (h : m.apics.head? = some t)
    (hw : temp.width ≤ t.data.width) (hh : temp.height ≤ t.data.height) :
    process_music_file temp m = (m, []) := by
  simp only [process_music_file, h]
  rw [if_pos ⟨hw, hh⟩]

/-- Export writes exactly the first APIC frame of the first mp3 entry. -/
theorem export_cover_first (name : String) (a : APIC)
    (others : List (String × MP3)) (hname : str_endswith name ".mp3" = true) :
    export_cover_from_mp3 ((name, ⟨[a]⟩) :: others) = some a.data := by
  simp [export_cover_from_mp3, List.filter_cons, hname]

/-- C2 as stated is false: exporting an embedded PNG artwork writes the
PNG bytes to cover.jpg unchanged, which is not a valid JPEG. -/
theorem c2_counterexample :
    export_cover_from_mp3
        [("track01.mp3",
          ⟨[⟨3, "image/png", 3, "Cover", ⟨500, 500, PilMode.RGB, ImgFormat.PNG⟩⟩]⟩)]
      = some ⟨500, 500, PilMode.RGB, ImgFormat.PNG⟩ ∧
    (Img.mk 500 500 PilMode.RGB ImgFormat.PNG).format ≠ ImgFormat.JPEG := by
  exact ⟨rfl, by decide⟩

/-- C2 amended: every write to cover.jpg stores the source bytes
untouched — the exporter writes the embedded artwork bytes of the first
mp3 as they are, and the downloader writes the fetched body exactly when
the Content-Type header mentions image; neither path validates or
re-encodes to JPEG, so the written cover is a valid JPEG exactly when
the source bytes already were. -/
theorem c2_cover_writes_copy_source_bytes (name : String) (a : APIC)
    (others : List (String × MP3)) (ct : String) (body : Img)
    (hname : str_endswith name ".mp3" = true) :
    export_cover_from_mp3 ((name, ⟨[a]⟩) :: others) = some a.data ∧
    (download_artwork ct body = some body ↔ strContains ct "image" = true) := by
  refine ⟨export_cover_first name a others hname, ?_⟩
  by_cases h : strContains ct "image" <;> simp [download_artwork, h]

theorem c2_cover_writes_copy_source_bytes_witness :
    export_cover_from_mp3
        [("x.mp3", ⟨[⟨3, "image/png", 3, "Cover", ⟨10, 20, PilMode.RGB, ImgFormat.PNG⟩⟩]⟩)]
      = some ⟨10, 20, PilMode.RGB, ImgFormat.PNG⟩ ∧
    (download_artwork "image/png" ⟨10, 20, PilMode.RGB, ImgFormat.PNG⟩
        = some ⟨10, 20, PilMode.RGB, ImgFormat.PNG⟩ ↔
      strContains "image/png" "image" = true) := by
  exact c2_cover_writes_copy_source_bytes "x.mp3"
    ⟨3, "image/png", 3, "Cover", ⟨10, 20, PilMode.RGB, ImgFormat.PNG⟩⟩ []
    "image/png" ⟨10, 20, PilMode.RGB, ImgFormat.PNG⟩ (by decide)

/-- C6: exporting the single embedded artwork of the first mp3 to
cover.jpg and then running the embedding pass on the folder is
idempotent: export writes exactly the artwork bytes, and the embedding
pass leaves the file with exactly the one original APIC frame, so its
artwork dimensions are unchanged. -/
theorem c6_round_trip_idempotent (R : Nat) (name : String) (a : APIC)
    (others : List (String × MP3)) (hname : str_endswith name ".mp3" = true) :
    export_cover_from_mp3 ((name, ⟨[a]⟩) :: others) = some a.data ∧
    ((embed_process_folder R
        ⟨some (CoverData.image a.data), (name, ⟨[a]⟩) :: others⟩).1.files.head?
      = some (name, (⟨[a]⟩ : MP3))) ∧
    (MP3.mk [a]).apics.length = 1 := by
  refine ⟨export_cover_first name a others hname, ?_, rfl⟩
  have hle := select_temp_cover_le R a.data
  have hskip : process_music_file (select_temp_cover R a.data) ⟨[a]⟩ = (⟨[a]⟩, []) :=
    process_skip _ _ a rfl hle.1 hle.2
  simp [embed_process_folder, embed_files, hname, hskip]

theorem c6_round_trip_idempotent_witness :
    export_cover_from_mp3
        [("y.mp3", ⟨[⟨3, "image/jpeg", 3, "Cover", ⟨640, 640, PilMode.RGB, ImgFormat.JPEG⟩⟩]⟩)]
      = some ⟨640, 640, PilMode.RGB, ImgFormat.JPEG⟩ ∧
    ((embed_process_folder 600
        ⟨some (CoverData.image ⟨640, 640, PilMode.RGB, ImgFormat.JPEG⟩),
         [("y.mp3", ⟨[⟨3, "image/jpeg", 3, "Cover", ⟨640, 640, PilMode.RGB, ImgFormat.JPEG⟩⟩]⟩)]⟩).1.files.head?
      = some ("y.mp3",
          (⟨[⟨3, "image/jpeg", 3, "Cover", ⟨640, 640, PilMode.RGB, ImgFormat.JPEG⟩⟩]⟩ : MP3))) ∧
    (MP3.mk [⟨3, "image/jpeg", 3, "Cover", ⟨640, 640, PilMode.RGB, ImgFormat.JPEG⟩⟩]).apics.length
      = 1 := by
  exact c6_round_trip_idempotent 600 "y.mp3"
    ⟨3, "image/jpeg", 3, "Cover", ⟨640, 640, PilMode.RGB, ImgFormat.JPEG⟩⟩ [] (by decide)

/-- Folders whose listing has no ".mp3" entry are left untouched by the
per-file embedding loop. -/
theorem embed_files_no_mp3 (temp : Img) :
    ∀ fs : List (String × MP3),
      fs.filter (fun e => str_endswith e.1 ".mp3") = [] →
      embed_files temp fs = (fs, []) := by
  intro fs
  induction fs with
  | nil => intro _; rfl
  | cons e rest ih =>
      intro h
      obtain ⟨n, m⟩ := e
      rw [List.filter_cons] at h
      by_cases he : str_endswith n ".mp3" = true
      · simp [he] at h
      · have he' : str_endswith n ".mp3" = false := by
          simpa using he
        simp only [he', if_neg] at h
        simp only [embed_files, he', ih (by simpa using h)]
        simp

/-- C7 as stated is false for the embedding engine: a folder holding a
large valid cover.jpg and zero audio files still triggers a filesystem
write (the resized temp cover), and no no-files report is issued. -/
theorem c7_counterexample :
    (embed_process_folder 600
        ⟨some (CoverData.image ⟨700, 700, PilMode.RGB, ImgFormat.JPEG⟩), []⟩).2.1
      = [Write.tempCover] ∧
    Msg.noFiles ∉
      (embed_process_folder 600
        ⟨some (CoverData.image ⟨700, 700, PilMode.RGB, ImgFormat.JPEG⟩), []⟩).2.2 := by
  exact ⟨rfl, by decide⟩

/-- C7 amended: for a folder with zero audio files, the embedding engine
mutates no file of the folder, performs no audio-file write and issues
no no-files report (it may still write the scratch temp cover); the
artwork fetcher, by contrast, reports no mp3 files and performs no
filesystem write at all. -/
theorem c7_zero_audio_files (R : Nat) (f : EFolder) (s : Settings)
    (mbRelease caa it lf : Option String) (ct : String) (body : Img)
    (listing : List String)
    (hf : f.files.filter (fun e => str_endswith e.1 ".mp3") = [])
    (hl : listing.filter (fun n => str_endswith n ".mp3") = []) :
    (embed_process_folder R f).1 = f ∧
    Write.audioSave ∉ (embed_process_folder R f).2.1 ∧
    Msg.noFiles ∉ (embed_process_folder R f).2.2 ∧
    fetch_artwork_for_folder s mbRelease caa it lf ct body false listing
      = ⟨none, [], [Msg.noFiles], []⟩ := by
  have hfetch : fetch_artwork_for_folder s mbRelease caa it lf ct body false listing
      = ⟨none, [], [Msg.noFiles], []⟩ := by
    simp [fetch_artwork_for_folder, hl]
  match hcov : f.cover with
  | none =>
      obtain ⟨cov, fls⟩ := f
      simp at hcov
      subst hcov
      exact ⟨rfl, by simp [embed_process_folder], by simp [embed_process_folder], hfetch⟩
  | some CoverData.emptyFile =>
      obtain ⟨cov, fls⟩ := f
      simp at hcov
      subst hcov
      exact ⟨rfl, by simp [embed_process_folder], by simp [embed_process_folder], hfetch⟩
  | some CoverData.corrupt =>
      obtain ⟨cov, fls⟩ := f
      simp at hcov
      subst hcov
      exact ⟨rfl, by simp [embed_process_folder], by simp [embed_process_folder], hfetch⟩
  | some (CoverData.image img) =>
      obtain ⟨cov, fls⟩ := f
      simp at hcov
      subst hcov
      have hemb := embed_files_no_mp3 (select_temp_cover R img) fls (by simpa using hf)
      refine ⟨?_, ?_, ?_, hfetch⟩
      · simp [embed_process_folder, hemb]
      · simp only [embed_process_folder, hemb]
        intro hmem
        simp only [List.append_nil, List.mem_append] at hmem
        rcases hmem with hmem | hmem <;>
          · split at hmem <;> simp_all
      · simp [embed_process_folder, hemb]

theorem c7_zero_audio_files_witness :
    (embed_process_folder 600
        (⟨some (CoverData.image ⟨700, 700, PilMode.RGB, ImgFormat.JPEG⟩),
          [("readme.txt", ⟨[]⟩)]⟩ : EFolder)).1
      = ⟨some (CoverData.image ⟨700, 700, PilMode.RGB, ImgFormat.JPEG⟩),
         [("readme.txt", ⟨[]⟩)]⟩ ∧
    fetch_artwork_for_folder ⟨true, true, false⟩ none none none none
        "image/jpeg" ⟨1, 1, PilMode.RGB, ImgFormat.JPEG⟩ false ["readme.txt"]
      = ⟨none, [], [Msg.noFiles], []⟩ := by
  have h := c7_zero_audio_files 600
    ⟨some (CoverData.image ⟨700, 700, PilMode.RGB, ImgFormat.JPEG⟩),
     [("readme.txt", ⟨[]⟩)]⟩
    ⟨true, true, false⟩ none none none none "image/jpeg"
    ⟨1, 1, PilMode.RGB, ImgFormat.JPEG⟩ ["readme.txt"] (by decide) (by decide)
  exact ⟨h.1, h.2.2.2⟩

/-- C5: the source chain of fetch_artwork_for_folder queries MusicBrainz
first when enabled; iTunes is queried only under hi-res priority and
only when MusicBrainz yielded no candidate; Last.fm is queried only when
the earlier sources yielded no candidate; resolution stops at the first
source yielding a candidate; and under NO_LOW_RES Last.fm is never
queried. -/
theorem c5_source_priority_chain (s : Settings) (mbRelease caa it lf : Option String) :
    (s.USE_MUSICBRAINZ = true →
      (fetch_chain s mbRelease caa it lf).2.head? = some Source.musicbrainz) ∧
    (Source.itunes ∈ (fetch_chain s mbRelease caa it lf).2 →
      s.USE_HIRES_PRIORITY = true ∧ truthy (mb_result s mbRelease caa) = false) ∧
    (Source.lastfm ∈ (fetch_chain s mbRelease caa it lf).2 →
      s.NO_LOW_RES = false ∧ truthy (mb_result s mbRelease caa) = false ∧
      (s.USE_HIRES_PRIORITY = true → truthy it = false)) ∧
    (truthy (mb_result s mbRelease caa) = true →
      fetch_chain s mbRelease caa it lf
        = (mb_result s mbRelease caa, [Source.musicbrainz])) ∧
    (truthy (mb_result s mbRelease caa) = false → s.USE_HIRES_PRIORITY = true →
      truthy it = true →
      (fetch_chain s mbRelease caa it lf).1 = it ∧
      Source.lastfm ∉ (fetch_chain s mbRelease caa it lf).2) ∧
    (s.NO_LOW_RES = true →
      Source.lastfm ∉ (fetch_chain s mbRelease caa it lf).2) := by
  obtain ⟨mbE, hiE, nlE⟩ := s
  by_cases h1 : truthy (mb_result ⟨mbE, hiE, nlE⟩ mbRelease caa) = true
  · have h1' := h1
    cases mbE <;> cases hiE <;> cases nlE <;>
      simp_all [fetch_chain, mb_result, fetch_lastfm_artwork, truthy]
  · have h1' : truthy (mb_result ⟨mbE, hiE, nlE⟩ mbRelease caa) = false := by
      simpa using h1
    by_cases h2 : truthy it = true
    · cases mbE <;> cases hiE <;> cases nlE <;>
        simp_all [fetch_chain, mb_result, fetch_lastfm_artwork]
    · have h2' : truthy it = false := by simpa using h2
      cases mbE <;> cases hiE <;> cases nlE <;>
        simp_all [fetch_chain, mb_result, fetch_lastfm_artwork]

theorem c5_source_priority_chain_witness :
    ((Settings.mk true true false).USE_MUSICBRAINZ = true ∧
      (fetch_chain ⟨true, true, false⟩ (some "rid") (some "caaurl") none none).2.head?
        = some Source.musicbrainz) ∧
    (truthy (mb_result ⟨true, true, false⟩ (some "rid") (some "caaurl")) = true ∧
      fetch_chain ⟨true, true, false⟩ (some "rid") (some "caaurl") none none
        = (some "caaurl", [Source.musicbrainz])) := by
  refine ⟨⟨rfl, ?_⟩, ⟨by decide, ?_⟩⟩
  · exact (c5_source_priority_chain ⟨true, true, false⟩ (some "rid") (some "caaurl")
      none none).1 rfl
  · have h := (c5_source_priority_chain ⟨true, true, false⟩ (some "rid") (some "caaurl")
      none none).2.2.2.1 (by decide)
    simpa [mb_result, truthy] using h

/-- first element of a filtered list: it satisfies the predicate and
everything before it in the original list does not. -/
theorem head_filter_characterization {α : Type} (p : α → Bool) :
    ∀ (l : List α) (x : α), (l.filter p).head? = some x →
      p x = true ∧ ∃ pre post, l = pre ++ x :: post ∧ ∀ y ∈ pre, p y = false := by
  intro l
  induction l with
  | nil => intro x h; simp at h
  | cons a t ih =>
      intro x h
      by_cases ha : p a = true
      · rw [List.filter_cons] at h
        rw [if_pos ha] at h
        have hxa : a = x := by simpa using h
        subst hxa
        refine ⟨ha, [], t, rfl, ?_⟩
        intro y hy
        cases hy
      · have ha' : p a = false := by simpa using ha
        rw [List.filter_cons] at h
        rw [if_neg (by simp [ha'])] at h
        obtain ⟨hp, pre, post, heq, hpre⟩ := ih x h
        refine ⟨hp, a :: pre, post, by rw [heq]; rfl, ?_⟩
        intro y hy
        rcases List.mem_cons.mp hy with rfl | hy'
        · exact ha'
        · exact hpre y hy'

/-- C8 as stated is false: the scripts do not sort, so the chosen file
is the first ".mp3" in enumeration order; two enumerations of the same
folder contents (a permutation) pick different files, and the pick
differs from the sorted-order first. -/
theorem c8_counterexample :
    List.Perm ["b.mp3", "a.mp3"] ["a.mp3", "b.mp3"] ∧
    first_mp3_fetch ["b.mp3", "a.mp3"] = some "b.mp3" ∧
    first_mp3_fetch ["a.mp3", "b.mp3"] = some "a.mp3" ∧
    ("b.mp3" : String) ≠ "a.mp3" := by
  refine ⟨List.Perm.swap "a.mp3" "b.mp3" [], rfl, rfl, by decide⟩

/-- C8 amended: identity lookup and artwork export agree on the choice
for every listing — the first ".mp3" entry in the order the directory
enumeration returns entries: the chosen name ends in ".mp3" and every
entry before it does not.  The choice is deterministic for a fixed
enumeration but is enumeration order, not sorted filename order. -/
theorem c8_first_mp3_enumeration_order (listing : List String) :
    first_mp3_export listing = first_mp3_fetch listing ∧
    (∀ x, first_mp3_fetch listing = some x →
      str_endswith x ".mp3" = true ∧
      ∃ pre post, listing = pre ++ x :: post ∧
        ∀ y ∈ pre, str_endswith y ".mp3" = false) := by
  refine ⟨rfl, ?_⟩
  intro x h
  exact head_filter_characterization (fun f => str_endswith f ".mp3") listing x h

theorem c8_first_mp3_enumeration_order_witness :
    first_mp3_fetch ["cover.jpg", "z.mp3"] = some "z.mp3" ∧
    str_endswith "z.mp3" ".mp3" = true ∧
    ∃ pre post, ["cover.jpg", "z.mp3"] = pre ++ "z.mp3" :: post ∧
      ∀ y ∈ pre, str_endswith y ".mp3" = false := by
  refine ⟨rfl, ?_⟩
  exact (c8_first_mp3_enumeration_order ["cover.jpg", "z.mp3"]).2 "z.mp3" rfl

/-- C9 as stated is false: in embed-artwork.py (and export-coverart.py)
the -a branch is tested before -c, so passing both flags processes the
whole library; the -c restriction has no effect there. -/
theorem c9_counterexample :
    embed_main true true none = Action.wholeLibrary ∧
    embed_main true true none = embed_main true false none ∧
    export_main true true none = Action.wholeLibrary ∧
    embed_main true true none ≠ Action.cdOnly := by
  exact ⟨rfl, rfl, rfl, by decide⟩

/-- C9 amended: with both -a and -c, embed-artwork.py and
export-coverart.py ignore -c and process the whole library; only
id3tocovr.py combines the flags, passing -c into its walk, whose targets
under the cd flag are exactly the CD-named subfolders of each album, the
album folder itself being targeted only when it has no CD subfolders. -/
theorem c9_cd_flag_semantics :
    (∀ cd : Bool,
      embed_main true cd none = Action.wholeLibrary ∧
      export_main true cd none = Action.wholeLibrary ∧
      id3_main true cd none = Action.libraryWalk cd) ∧
    (∀ (al : AlbumDir) (t : String), t ∈ id3_album_targets true al →
      (∃ d ∈ cd_subdirs al, t = al.path ++ "/" ++ d) ∨
      (cd_subdirs al = [] ∧ t = al.path)) := by
  constructor
  · intro cd; cases cd <;> exact ⟨rfl, rfl, rfl⟩
  · intro al t ht
    unfold id3_album_targets at ht
    by_cases hcd : cd_subdirs al = []
    · rw [if_neg (fun hc => hc.2 hcd)] at ht
      have : t = al.path := by simpa using ht
      exact Or.inr ⟨hcd, this⟩
    · rw [if_pos ⟨rfl, hcd⟩] at ht
      obtain ⟨d, hd, rfl⟩ := List.mem_map.mp ht
      exact Or.inl ⟨d, hd, rfl⟩

theorem c9_cd_flag_semantics_witness :
    ((∃ d ∈ cd_subdirs ⟨"Album", ["CD 1", "CD 2"]⟩,
        "Album" ++ "/" ++ "CD 1" = "Album" ++ "/" ++ d) ∨
      (cd_subdirs ⟨"Album", ["CD 1", "CD 2"]⟩ = [] ∧
        "Album" ++ "/" ++ "CD 1" = "Album")) := by
  exact c9_cd_flag_semantics.2 ⟨"Album", ["CD 1", "CD 2"]⟩ ("Album" ++ "/" ++ "CD 1")
    (by decide)

end MusicScripts
